import Mathlib

/-!
# Verification of the BG3 PAK archive reader core (`genmoddata.py`)

Shallow embedding of the archive-format core of `BG3PakReader`:
header detection/parsing, directory decode with stride inference,
multi-strategy decompression, and single-member extraction.

Conventions of the embedding:
* a byte buffer is a `List Nat` (each element one byte value);
* all multi-byte integers are little-endian, read with `u32At` / `u64At`;
* Python's `struct.unpack` on a slice that is shorter than the requested
  width raises `struct.error`; this is modelled by `unpack4` / `unpack8`
  returning `Except`;
* Python strings obtained by `bytes.decode('utf-8', errors='ignore')`
  are modelled as lists of Unicode code points (`List Nat`) produced by
  `utf8DecodeIgnore`; the empty string is `[]`;
* the external `lz4` library functions (`lz4.frame.decompress`,
  `lz4.block.decompress` with and without `uncompressed_size=`) are
  abstracted as an `LZ4Lib` record of fallible byte transforms, since the
  reader only observes success-with-bytes or a raised exception;
  `HAS_LZ4` is taken to be `true` (the decompression paths under study
  only exist in that case);
* file I/O reads the whole archive into memory; extraction's
  `seek`/`read(n)` on the in-memory buffer is `pySlice`, which, like
  Python slicing, silently returns fewer bytes past end-of-buffer.
-/

/-- Python slice `data[a:b]` for `0 ≤ a ≤ b` (clamped at the ends). -/
def pySlice (data : List Nat) (a b : Nat) : List Nat :=
  (data.take b).drop a

/-- Little-endian value of a byte list (first byte least significant). -/
def leVal (bs : List Nat) : Nat :=
  bs.foldr (fun b acc => b + 256 * acc) 0

/-- `struct.unpack('<I', data[off:off+4])[0]` when in bounds. -/
def u32At (data : List Nat) (off : Nat) : Nat :=
  leVal (pySlice data off (off + 4))

/-- `struct.unpack('<Q', data[off:off+8])[0]` when in bounds. -/
def u64At (data : List Nat) (off : Nat) : Nat :=
  leVal (pySlice data off (off + 8))

/-- `struct.unpack('<I', data[off:off+4])` including the `struct.error`
raised when the slice is shorter than 4 bytes. -/
def unpack4 (data : List Nat) (off : Nat) : Except String Nat :=
  if (pySlice data off (off + 4)).length = 4 then
    .ok (leVal (pySlice data off (off + 4)))
  else
    .error "struct.error"

/-- `struct.unpack('<Q', data[off:off+8])` including the `struct.error`
raised when the slice is shorter than 8 bytes. -/
def unpack8 (data : List Nat) (off : Nat) : Except String Nat :=
  if (pySlice data off (off + 8)).length = 8 then
    .ok (leVal (pySlice data off (off + 8)))
  else
    .error "struct.error"

/-- `BG3PakReader.LSPK_SIGNATURE = 0x4B50534C` ('LSPK'). -/
def LSPK_SIGNATURE : Nat := 0x4B50534C

/-- `PackageHeader` dataclass: PAK file header information. -/
structure PackageHeader where
  signature : Nat
  version : Nat
  file_list_offset : Nat
  file_list_size : Nat
  num_files : Nat
  data_offset : Nat := 0
deriving Repr, DecidableEq

/-- `FileEntry` dataclass: entry for a file within the PAK.  `name` holds
the code points of the decoded name string. -/
structure FileEntry where
  name : List Nat
  offset : Nat
  size_on_disk : Nat
  uncompressed_size : Nat
  archive_part : Nat := 0
  flags : Nat := 0
deriving Repr, DecidableEq

/-- `BG3PakReader._read_header_v13_plus`: read header for PAK version 13+
(header at end of file).  `header_offset < 0` in the Python source is the
`data.length < header_size` case here. -/
def read_header_v13_plus (data : List Nat) : Except String PackageHeader :=
  if data.length < 12 then .error "File too small for v13+ header"
  else
    let header_size := u32At data (data.length - 8)
    let signature := u32At data (data.length - 4)
    if signature ≠ LSPK_SIGNATURE then .error "Invalid PAK signature"
    else if data.length < header_size then .error "Invalid header size"
    else
      let header_data := pySlice data (data.length - header_size) (data.length - 8)
      if header_data.length < 28 then .error "Header data too small"
      else
        .ok { signature := signature
              version := u32At header_data 0
              file_list_offset := u64At header_data 4
              file_list_size := u32At header_data 12
              num_files := u32At header_data 20
              data_offset := 0 }

/-- `BG3PakReader._read_header_v10`: read header for PAK version 10
(header at beginning). -/
def read_header_v10 (data : List Nat) : Except String PackageHeader :=
  if data.length < 32 then .error "File too small for v10 header"
  else
    let signature := u32At data 0
    if signature ≠ LSPK_SIGNATURE then .error "Invalid PAK signature"
    else
      .ok { signature := signature
            version := u32At data 4
            file_list_offset := u64At data 8
            file_list_size := u32At data 16
            num_files := u32At data 28
            data_offset := 280 }

/-- UTF-8 continuation byte (0x80 to 0xBF). -/
def isCont (b : Nat) : Bool := decide (0x80 ≤ b ∧ b ≤ 0xBF)

/-- Allowed first continuation byte after a 3-byte lead `b` (excludes
overlong forms after 0xE0 and surrogate forms after 0xED). -/
def utf8Cont3 (b b2 : Nat) : Bool :=
  if b = 0xE0 then decide (0xA0 ≤ b2 ∧ b2 ≤ 0xBF)
  else if b = 0xED then decide (0x80 ≤ b2 ∧ b2 ≤ 0x9F)
  else isCont b2

/-- Allowed first continuation byte after a 4-byte lead `b` (excludes
overlong forms after 0xF0 and values above U+10FFFF after 0xF4). -/
def utf8Cont4 (b b2 : Nat) : Bool :=
  if b = 0xF0 then decide (0x90 ≤ b2 ∧ b2 ≤ 0xBF)
  else if b = 0xF4 then decide (0x80 ≤ b2 ∧ b2 ≤ 0x8F)
  else isCont b2

/-- Fuel-driven body of `utf8DecodeIgnore`; each step consumes at least
one byte and one unit of fuel, so fuel = initial length always suffices. -/
def utf8DecodeIgnoreAux : Nat → List Nat → List Nat
  | 0, _ => []
  | _ + 1, [] => []
  | fuel + 1, b :: rest =>
    if b ≤ 0x7F then b :: utf8DecodeIgnoreAux fuel rest
    else if 0xC2 ≤ b ∧ b ≤ 0xDF then
      match rest with
      | [] => []
      | b2 :: rest2 =>
        if isCont b2 then (64 * (b - 0xC0) + (b2 - 0x80)) :: utf8DecodeIgnoreAux fuel rest2
        else utf8DecodeIgnoreAux fuel rest
    else if 0xE0 ≤ b ∧ b ≤ 0xEF then
      match rest with
      | [] => []
      | b2 :: rest2 =>
        if utf8Cont3 b b2 then
          match rest2 with
          | [] => []
          | b3 :: rest3 =>
            if isCont b3 then
              (4096 * (b - 0xE0) + 64 * (b2 - 0x80) + (b3 - 0x80)) :: utf8DecodeIgnoreAux fuel rest3
            else utf8DecodeIgnoreAux fuel rest2
        else utf8DecodeIgnoreAux fuel rest
    else if 0xF0 ≤ b ∧ b ≤ 0xF4 then
      match rest with
      | [] => []
      | b2 :: rest2 =>
        if utf8Cont4 b b2 then
          match rest2 with
          | [] => []
          | b3 :: rest3 =>
            if isCont b3 then
              match rest3 with
              | [] => []
              | b4 :: rest4 =>
                if isCont b4 then
                  (262144 * (b - 0xF0) + 4096 * (b2 - 0x80) + 64 * (b3 - 0x80) + (b4 - 0x80)) ::
                    utf8DecodeIgnoreAux fuel rest4
                else utf8DecodeIgnoreAux fuel rest3
            else utf8DecodeIgnoreAux fuel rest2
        else utf8DecodeIgnoreAux fuel rest
    else utf8DecodeIgnoreAux fuel rest

/-- `bytes.decode('utf-8', errors='ignore')` as a code-point list: valid
sequences are decoded, a malformed portion (maximal valid subpart and its
offending lead) is skipped and decoding resumes at the offending byte, a
truncated trailing sequence is dropped. -/
def utf8DecodeIgnore (l : List Nat) : List Nat :=
  utf8DecodeIgnoreAux l.length l

/-- Fuel-driven body of `validUtf8`. -/
def validUtf8Aux : Nat → List Nat → Bool
  | 0, l => l.isEmpty
  | _ + 1, [] => true
  | fuel + 1, b :: rest =>
    if b ≤ 0x7F then validUtf8Aux fuel rest
    else if 0xC2 ≤ b ∧ b ≤ 0xDF then
      match rest with
      | b2 :: rest2 => isCont b2 && validUtf8Aux fuel rest2
      | [] => false
    else if 0xE0 ≤ b ∧ b ≤ 0xEF then
      match rest with
      | b2 :: b3 :: rest3 => utf8Cont3 b b2 && isCont b3 && validUtf8Aux fuel rest3
      | _ => false
    else if 0xF0 ≤ b ∧ b ≤ 0xF4 then
      match rest with
      | b2 :: b3 :: b4 :: rest4 => utf8Cont4 b b2 && isCont b3 && isCont b4 && validUtf8Aux fuel rest4
      | _ => false
    else false

/-- `bytes.decode('utf-8')` succeeds (strict UTF-8 validity, as checked by
the already-decompressed test in `_decompress_data`). -/
def validUtf8 (l : List Nat) : Bool :=
  validUtf8Aux l.length l

/-- Abstraction of the external `lz4` library: each strategy either
returns bytes or raises (modelled as `Except.error`). -/
structure LZ4Lib where
  frameDecompress : List Nat → Except String (List Nat)
  blockDecompressWithSize : List Nat → Nat → Except String (List Nat)
  blockDecompressAuto : List Nat → Except String (List Nat)

/-- `BG3PakReader._decompress_data`: try `lz4.frame.decompress`, then
`lz4.block.decompress(..., uncompressed_size=expected_size)` (only run
when `expected_size > 0`, else the lambda yields `None` and the loop
continues), then `lz4.block.decompress(...)`; if all raise, return the
input if it decodes as UTF-8, else fail. -/
def decompress_data (lib : LZ4Lib) (compressed_data : List Nat)
    (expected_size : Nat := 0) : Except String (List Nat) :=
  match lib.frameDecompress compressed_data with
  | .ok result => .ok result
  | .error _ =>
    match (if 0 < expected_size then
             some (lib.blockDecompressWithSize compressed_data expected_size)
           else none) with
    | some (.ok result) => .ok result
    | _ =>
      match lib.blockDecompressAuto compressed_data with
      | .ok result => .ok result
      | .error _ =>
        if validUtf8 compressed_data then .ok compressed_data
        else .error "All decompression methods failed"

/-- Name extraction shared by all record layouts: the first 256 bytes, up
to the first NUL, decoded leniently; if no NUL occurs, `name` keeps its
initial value, the empty string. -/
def entryName (entry_data : List Nat) : List Nat :=
  let name_bytes := entry_data.take 256
  match name_bytes.findIdx? (· == 0) with
  | some null_pos => utf8DecodeIgnore (name_bytes.take null_pos)
  | none => []

/-- The body of the per-record `try` block in
`BG3PakReader._read_file_entries`: parse one `entry_size`-byte window per
the version-keyed layout.  Any `struct.error` (short slice) aborts the
record with `.error`, landing in the `except ... continue` branch. -/
def parse_entry (version : Nat) (entry_data : List Nat) : Except String FileEntry :=
  if 18 ≤ version then
    match unpack4 entry_data 256 with
    | .error m => .error m
    | .ok file_offset =>
      match unpack4 entry_data 264 with
      | .error m => .error m
      | .ok size_on_disk =>
        match unpack4 entry_data 268 with
        | .error m => .error m
        | .ok uncompressed_size =>
          match (if 272 ≤ entry_data.length then unpack4 entry_data 268 else .ok 0) with
          | .error m => .error m
          | .ok archive_part =>
            .ok ⟨entryName entry_data, file_offset, size_on_disk, uncompressed_size,
                 archive_part, 0⟩
  else if 13 ≤ version then
    match unpack8 entry_data 256 with
    | .error m => .error m
    | .ok file_offset =>
      match unpack8 entry_data 264 with
      | .error m => .error m
      | .ok size_on_disk =>
        match unpack8 entry_data 272 with
        | .error m => .error m
        | .ok uncompressed_size =>
          match (if 284 ≤ entry_data.length then unpack4 entry_data 280 else .ok 0) with
          | .error m => .error m
          | .ok archive_part =>
            match (if 288 ≤ entry_data.length then unpack4 entry_data 284 else .ok 0) with
            | .error m => .error m
            | .ok flags =>
              .ok ⟨entryName entry_data, file_offset, size_on_disk, uncompressed_size,
                   archive_part, flags⟩
  else
    match unpack8 entry_data 256 with
    | .error m => .error m
    | .ok file_offset =>
      match unpack4 entry_data 264 with
      | .error m => .error m
      | .ok size_on_disk =>
        match unpack4 entry_data 268 with
        | .error m => .error m
        | .ok uncompressed_size =>
          .ok ⟨entryName entry_data, file_offset, size_on_disk, uncompressed_size, 0, 0⟩

/-- The record loop of `_read_file_entries`: `k` remaining iterations of
`for i in range(...)`, current byte offset `off`.  A record is kept only
when its name is non-empty and its offset positive; a parse exception
hits `continue`, which (as in the source) skips the `offset +=
entry_size` step, so the next iteration re-reads the same window. -/
def parse_loop (version : Nat) (decompressed : List Nat) (entry_size : Nat) :
    Nat → Nat → List FileEntry
  | 0, _ => []
  | k + 1, off =>
    if decompressed.length < off + entry_size then []
    else
      match parse_entry version (pySlice decompressed off (off + entry_size)) with
      | .error _ => parse_loop version decompressed entry_size k off
      | .ok fe =>
        if fe.name ≠ [] ∧ 0 < fe.offset then
          fe :: parse_loop version decompressed entry_size k (off + entry_size)
        else
          parse_loop version decompressed entry_size k (off + entry_size)

/-- Stride selection of `_read_file_entries`: `calculated_entry_size =
len(decompressed) // num_files` (guarded for `num_files == 0`), used when
strictly between 250 and 350, else a version-keyed fallback. -/
def entrySizeFor (version decompressed_len num_files : Nat) : Nat :=
  let calculated_entry_size := if 0 < num_files then decompressed_len / num_files else 0
  if 250 < calculated_entry_size ∧ calculated_entry_size < 350 then calculated_entry_size
  else if 18 ≤ version then 296
  else if 15 ≤ version then 296
  else if 13 ≤ version then 296
  else 272

/-- The post-decompression half of `_read_file_entries`: stride inference
followed by the record loop over `min(num_files, len(decompressed) //
entry_size)` windows. -/
def parse_entries (version : Nat) (decompressed : List Nat) (num_files : Nat) :
    List FileEntry :=
  let entry_size := entrySizeFor version decompressed.length num_files
  parse_loop version decompressed entry_size
    (min num_files (decompressed.length / entry_size)) 0

/-- `BG3PakReader._read_file_entries`: bounds-check the directory region,
decompress it, then parse records; every failure path returns the entries
collected so far (the empty list). -/
def read_file_entries (lib : LZ4Lib) (data : List Nat) (header : PackageHeader) :
    List FileEntry :=
  let file_list_start := header.file_list_offset
  if data.length < file_list_start + 8 then []
  else
    let num_files := u32At data file_list_start
    let compressed_size := u32At data (file_list_start + 4)
    let compressed_start := file_list_start + 8
    if data.length < compressed_start + compressed_size then []
    else
      let compressed_data := pySlice data compressed_start (compressed_start + compressed_size)
      match decompress_data lib compressed_data (num_files * 300) with
      | .error _ => []
      | .ok decompressed => parse_entries header.version decompressed num_files

/-- Result of `BG3PakReader.read_pak_structure`: the returned boolean and
the `self.header` / `self.files` state it leaves behind. -/
structure ReadResult where
  success : Bool
  header : Option PackageHeader
  files : List FileEntry
deriving Repr, DecidableEq

/-- `BG3PakReader.read_pak_structure`: try the v13+ trailing header when
the end signature matches, fall back to the v10 leading header when the
start signature matches, then decode the directory; returns `True`
exactly when `len(self.files) > 0`. -/
def read_pak_structure (lib : LZ4Lib) (data : List Nat) : ReadResult :=
  if data.length < 12 then ⟨false, none, []⟩
  else
    let start_sig := u32At data 0
    let end_sig := u32At data (data.length - 4)
    let header13 : Option PackageHeader :=
      if end_sig = LSPK_SIGNATURE then (read_header_v13_plus data).toOption else none
    match header13 with
    | some h =>
      let files := read_file_entries lib data h
      ⟨decide (0 < files.length), some h, files⟩
    | none =>
      if start_sig = LSPK_SIGNATURE then
        match read_header_v10 data with
        | .error _ => ⟨false, none, []⟩
        | .ok h =>
          let files := read_file_entries lib data h
          ⟨decide (0 < files.length), some h, files⟩
      else ⟨false, none, []⟩

/-- Python `str.lower()` restricted to the ASCII letters that occur in
archive member paths. -/
def strLower (s : List Nat) : List Nat :=
  s.map (fun c => if 65 ≤ c ∧ c ≤ 90 then c + 32 else c)

/-- The case-insensitive member lookup loop of `extract_file`. -/
def findEntry (files : List FileEntry) (filename : List Nat) : Option FileEntry :=
  files.find? (fun fe => strLower fe.name == strLower filename)

/-- The decompression decision of `extract_file`: size mismatch first,
then (for payloads longer than 4 bytes) the LZ4 frame magic
`b'\x04\x22\x4D\x18'`, then the binary-sniff heuristic. -/
def needs_decompression (target_file : FileEntry) (file_data : List Nat) : Bool :=
  if target_file.size_on_disk ≠ target_file.uncompressed_size ∧
      0 < target_file.uncompressed_size then true
  else if 4 < file_data.length then
    if file_data.take 4 = [0x04, 0x22, 0x4D, 0x18] then true
    else if ((file_data.take 50).any fun b => decide (b < 0x20) || decide (0x7E < b)) &&
        !((file_data.take 100).contains 0x3C) then true
    else false
  else false

/-- The tail of `extract_file` after the payload bytes were read: either
return them raw, or decompress with `expected_size =
target_file.uncompressed_size`, degrading to the raw bytes if every
decompression strategy fails. -/
def process_payload (lib : LZ4Lib) (target_file : FileEntry) (file_data : List Nat) :
    List Nat :=
  if needs_decompression target_file file_data then
    match decompress_data lib file_data target_file.uncompressed_size with
    | .ok decompressed => decompressed
    | .error _ => file_data
  else file_data

/-- `BG3PakReader.extract_file` on an opened archive (`self.header` and
`self.files` cached): case-insensitive lookup, seek/read of
`size_on_disk` bytes (short reads silently truncated, as with Python
`file.read`), then `process_payload`. -/
def extract_file (lib : LZ4Lib) (data : List Nat) (header : PackageHeader)
    (files : List FileEntry) (filename : List Nat) : Option (List Nat) :=
  match findEntry files filename with
  | none => none
  | some target_file =>
    let actual_offset := target_file.offset +
      (if header.version < 13 then header.data_offset else 0)
    let file_data := pySlice data actual_offset (actual_offset + target_file.size_on_disk)
    some (process_payload lib target_file file_data)

/-- `BG3PakReader.list_files` on a fresh reader: run
`read_pak_structure`, return `[]` when it fails, else the decoded names
in order. -/
def list_files (lib : LZ4Lib) (data : List Nat) : List (List Nat) :=
  let r := read_pak_structure lib data
  if r.success then r.files.map (fun f => f.name) else []

/-- `BG3PakReader.extract_file` on a fresh reader: `read_pak_structure`
first, `None` when it fails, else extraction against the cached state. -/
def extract_file_fresh (lib : LZ4Lib) (data : List Nat) (filename : List Nat) :
    Option (List Nat) :=
  let r := read_pak_structure lib data
  if r.success then
    match r.header with
    | some h => extract_file lib data h r.files filename
    | none => none
  else none

/-! ## Concrete archives and decompressor instances used in witnesses -/

/-- A 36-byte trailing-header archive: 28-byte header body (version 18,
directory offset 40, compressed size 5, reserved, entry count 2) followed
by `header_size = 36` and the LSPK signature. -/
def demoHeaderBuf : List Nat :=
  [18, 0, 0, 0] ++ [40, 0, 0, 0, 0, 0, 0, 0] ++ [5, 0, 0, 0] ++ [0, 0, 0, 0] ++
  [2, 0, 0, 0] ++ [0, 0, 0, 0] ++ [36, 0, 0, 0] ++ [0x4C, 0x53, 0x50, 0x4B]

/-- One 296-byte version-18 directory record with a single-letter name,
given offset, `size_on_disk = 7` and `uncompressed_size = 9`. -/
def demoRecV18 (nameByte off : Nat) : List Nat :=
  nameByte :: List.replicate 255 0 ++ [off, 0, 0, 0] ++ [0, 0, 0, 0] ++
  [7, 0, 0, 0] ++ [9, 0, 0, 0] ++ List.replicate 24 0

/-- A decompressed directory of three 296-byte records; the middle one
has `offset = 0` and is dropped by the validity filter. -/
def demoDir : List Nat :=
  demoRecV18 65 1 ++ demoRecV18 66 0 ++ demoRecV18 67 2

/-- An `lz4` instance in which every decompression strategy raises. -/
def lz4AllFail : LZ4Lib :=
  { frameDecompress := fun _ => .error "frame failed"
    blockDecompressWithSize := fun _ _ => .error "block failed"
    blockDecompressAuto := fun _ => .error "auto failed" }

/-- A record window parses without exception into an entry that survives
the validity filter (non-empty name, positive offset). -/
def recordOk (version : Nat) (entry_data : List Nat) : Bool :=
  match parse_entry version entry_data with
  | .ok fe => decide (fe.name ≠ []) && decide (0 < fe.offset)
  | .error _ => false

/-- A decompressed directory of three 296-byte records, all valid. -/
def demoDirOk : List Nat :=
  demoRecV18 65 1 ++ demoRecV18 66 3 ++ demoRecV18 67 2

/-- The decompression decision exactly as claim C4 states it: rule (a)
size mismatch, rule (b) first four bytes equal the LZ4 frame magic, rule
(c) binary sniff, first match wins, with no payload-length qualifier on
rules (b) and (c).  Stated from the specification text, to be compared
with `needs_decompression` from the source. -/
def claim_needs_decompression (target_file : FileEntry) (file_data : List Nat) : Bool :=
  if target_file.size_on_disk ≠ target_file.uncompressed_size ∧
      0 < target_file.uncompressed_size then true
  else if file_data.take 4 = [0x04, 0x22, 0x4D, 0x18] then true
  else if ((file_data.take 50).any fun b => decide (b < 0x20) || decide (0x7E < b)) &&
      !((file_data.take 100).contains 0x3C) then true
  else false

/-! ## Claims -/

/-- C1: for every buffer of length at least 12 whose trailing u32 equals
the LSPK magic, `_read_header_v13_plus` takes `header_size` from the
little-endian u32 at `[len-8, len-4)`, fails when `len - header_size`
would be negative or when the header body `[len - header_size, len - 8)`
is shorter than 28 bytes, and otherwise returns version, directory
offset, directory compressed size and entry count from body offsets
0, 4, 12 and 20 (4 reserved bytes at 16 skipped) with
`data_base_offset = 0`. -/
theorem c1_header_v13_plus (data : List Nat)
    (hlen : 12 ≤ data.length)
    (hsig : u32At data (data.length - 4) = LSPK_SIGNATURE)
    (hs : Nat) (hhs : hs = u32At data (data.length - 8))
    (body : List Nat) (hbody : body = pySlice data (data.length - hs) (data.length - 8)) :
    (data.length < hs → read_header_v13_plus data = .error "Invalid header size") ∧
    (hs ≤ data.length → body.length < 28 →
      read_header_v13_plus data = .error "Header data too small") ∧
    (hs ≤ data.length → 28 ≤ body.length →
      read_header_v13_plus data =
        .ok { signature := LSPK_SIGNATURE
              version := u32At body 0
              file_list_offset := u64At body 4
              file_list_size := u32At body 12
              num_files := u32At body 20
              data_offset := 0 }) := by
  have h12 : ¬ data.length < 12 := by omega
  subst hhs hbody
  refine ⟨fun hneg => ?_, fun hle hsmall => ?_, fun hle hbig => ?_⟩
  · simp only [read_header_v13_plus, h12, if_false, hsig, ite_not, if_pos rfl, if_true,
      if_pos hneg]
  · simp only [read_header_v13_plus, h12, if_false, hsig, ite_not, if_pos rfl, if_true,
      if_neg (Nat.not_lt.mpr hle), if_pos hsmall]
  · simp only [read_header_v13_plus, h12, if_false, hsig, ite_not, if_pos rfl, if_true,
      if_neg (Nat.not_lt.mpr hle), if_neg (Nat.not_lt.mpr hbig)]

/-- Witness for C1 on the concrete 36-byte archive `demoHeaderBuf`. -/
theorem c1_header_v13_plus_witness :
    read_header_v13_plus demoHeaderBuf =
      .ok { signature := LSPK_SIGNATURE, version := 18, file_list_offset := 40,
            file_list_size := 5, num_files := 2, data_offset := 0 } := by
  rw [(c1_header_v13_plus demoHeaderBuf (by decide) (by decide) 36 (by decide)
        (pySlice demoHeaderBuf (demoHeaderBuf.length - 36) (demoHeaderBuf.length - 8))
        rfl).2.2 (by decide) (by decide)]
  rfl

/-- Length of a Python slice. -/
theorem pySlice_length (data : List Nat) (a b : Nat) :
    (pySlice data a b).length = min b data.length - a := by
  simp [pySlice]

/-- A successful 4-byte unpack pins the offset in bounds and the value. -/
theorem unpack4_ok_le {data : List Nat} {off v : Nat}
    (h : unpack4 data off = .ok v) : off + 4 ≤ data.length ∧ v = u32At data off := by
  unfold unpack4 at h
  split at h
  · next hc =>
    rw [pySlice_length] at hc
    refine ⟨by omega, ?_⟩
    cases h
    rfl
  · cases h

/-- A 4-byte unpack in bounds succeeds with the little-endian value. -/
theorem unpack4_eq_ok {data : List Nat} {off : Nat} (h : off + 4 ≤ data.length) :
    unpack4 data off = .ok (u32At data off) := by
  unfold unpack4
  rw [if_pos (by rw [pySlice_length]; omega)]
  rfl

/-- A successful 8-byte unpack pins the offset in bounds and the value. -/
theorem unpack8_ok_le {data : List Nat} {off v : Nat}
    (h : unpack8 data off = .ok v) : off + 8 ≤ data.length ∧ v = u64At data off := by
  unfold unpack8 at h
  split at h
  · next hc =>
    rw [pySlice_length] at hc
    refine ⟨by omega, ?_⟩
    cases h
    rfl
  · cases h

/-- An 8-byte unpack in bounds succeeds with the little-endian value. -/
theorem unpack8_eq_ok {data : List Nat} {off : Nat} (h : off + 8 ≤ data.length) :
    unpack8 data off = .ok (u64At data off) := by
  unfold unpack8
  rw [if_pos (by rw [pySlice_length]; omega)]
  rfl

/-- Every entry produced by the record loop comes from a window that
parsed successfully and passed the validity filter. -/
theorem parse_loop_mem (version : Nat) (dec : List Nat) (es : Nat) :
    ∀ k off fe, fe ∈ parse_loop version dec es k off →
      (∃ w, parse_entry version w = .ok fe) ∧ fe.name ≠ [] ∧ 0 < fe.offset := by
  intro k
  induction k with
  | zero =>
    intro off fe h
    simp [parse_loop] at h
  | succ k ih =>
    intro off fe h
    simp only [parse_loop] at h
    by_cases hb : dec.length < off + es
    · rw [if_pos hb] at h
      simp at h
    · rw [if_neg hb] at h
      cases hpe : parse_entry version (pySlice dec off (off + es)) with
      | error m =>
        rw [hpe] at h
        exact ih off fe h
      | ok fe' =>
        rw [hpe] at h
        dsimp only at h
        by_cases hv : fe'.name ≠ [] ∧ 0 < fe'.offset
        · rw [if_pos hv] at h
          rcases List.mem_cons.mp h with heq | hmem
          · subst heq
            exact ⟨⟨_, hpe⟩, hv⟩
          · exact ih (off + es) fe hmem
        · rw [if_neg hv] at h
          exact ih (off + es) fe h

/-- When every remaining window is valid, the record loop surfaces one
entry per iteration. -/
theorem parse_loop_length_all (version : Nat) (dec : List Nat) (es : Nat) :
    ∀ k off, off + es * k ≤ dec.length →
      (∀ j, j < k → recordOk version (pySlice dec (off + es * j) (off + es * j + es)) = true) →
      (parse_loop version dec es k off).length = k := by
  intro k
  induction k with
  | zero => intro off _ _; rfl
  | succ k ih =>
    intro off hb hall
    rw [Nat.mul_succ] at hb
    have hb0 : ¬ dec.length < off + es := by omega
    have h0 : recordOk version (pySlice dec off (off + es)) = true := by
      have := hall 0 (Nat.succ_pos k)
      simpa using this
    unfold recordOk at h0
    cases hpe : parse_entry version (pySlice dec off (off + es)) with
    | error m =>
      rw [hpe] at h0
      cases h0
    | ok fe' =>
      rw [hpe] at h0
      simp only [Bool.and_eq_true, decide_eq_true_eq] at h0
      simp only [parse_loop]
      rw [if_neg hb0, hpe]
      dsimp only
      rw [if_pos h0]
      simp only [List.length_cons]
      rw [ih (off + es) (by omega) ?_]
      intro j hj
      have hjj := hall (j + 1) (by omega)
      have e : off + es * (j + 1) = off + es + es * j := by ring
      rw [e] at hjj
      exact hjj

/-- C9: directory decode invoked with `entry_count = 0` returns the empty
entry list; the stride computation is guarded for zero (taking the
version-keyed fallback instead of dividing) and the record loop iterates
zero times. -/
theorem c9_zero_entry_count (version : Nat) (decompressed : List Nat) :
    parse_entries version decompressed 0 = [] ∧
    entrySizeFor version decompressed.length 0 = (if 13 ≤ version then 296 else 272) := by
  constructor
  · simp only [parse_entries, Nat.zero_min]
    rfl
  · simp only [entrySizeFor]
    norm_num
    split_ifs <;> first | rfl | omega

/-- C2: with `entry_count > 0` the stride is `decompressed_len div
entry_count` whenever that quotient lies strictly between 250 and 350,
and otherwise the version-keyed fallback (296 for version 13 and later,
272 before); a directory of length exactly `296 * entry_count` whose
windows are all valid uses stride 296 and surfaces `entry_count` records,
and a quotient of 400 lands in the fallback. -/
theorem c2_stride_inference (version : Nat) (decompressed : List Nat) (num_files : Nat) :
    (0 < num_files → 250 < decompressed.length / num_files →
      decompressed.length / num_files < 350 →
      entrySizeFor version decompressed.length num_files = decompressed.length / num_files) ∧
    ((decompressed.length / num_files ≤ 250 ∨ 350 ≤ decompressed.length / num_files ∨
        num_files = 0) →
      entrySizeFor version decompressed.length num_files =
        (if 13 ≤ version then 296 else 272)) ∧
    (0 < num_files → decompressed.length = 296 * num_files →
      entrySizeFor version decompressed.length num_files = 296) ∧
    (0 < num_files → decompressed.length = 296 * num_files →
      (∀ i, i < num_files →
        recordOk version (pySlice decompressed (296 * i) (296 * i + 296)) = true) →
      (parse_entries version decompressed num_files).length = num_files) := by
  have hfall : ∀ h : ¬ (250 < (if 0 < num_files then decompressed.length / num_files else 0) ∧
      (if 0 < num_files then decompressed.length / num_files else 0) < 350),
      entrySizeFor version decompressed.length num_files = (if 13 ≤ version then 296 else 272) := by
    intro h
    simp only [entrySizeFor, if_neg h]
    split_ifs <;> first | rfl | omega
  have h296 : 0 < num_files → decompressed.length = 296 * num_files →
      entrySizeFor version decompressed.length num_files = 296 := by
    intro hn hlen
    have hq : decompressed.length / num_files = 296 := by
      rw [hlen, Nat.mul_div_cancel]; omega
    simp only [entrySizeFor, if_pos hn, hq]
    norm_num
  refine ⟨fun hn h250 h350 => ?_, fun hout => ?_, h296, fun hn hlen hall => ?_⟩
  · simp only [entrySizeFor, if_pos hn]
    rw [if_pos ⟨h250, h350⟩]
  · apply hfall
    rcases Nat.eq_zero_or_pos num_files with h0 | hpos
    · subst h0
      simp
    · rw [if_pos hpos]
      omega
  · have hes := h296 hn hlen
    simp only [parse_entries, hes]
    have hdiv : decompressed.length / 296 = num_files := by
      rw [hlen, Nat.mul_div_cancel_left]; omega
    rw [hdiv, min_self]
    apply parse_loop_length_all
    · omega
    · intro j hj
      have := hall j hj
      simpa using this

set_option maxRecDepth 100000 in
/-- Witness for C2 on the concrete three-record directory `demoDirOk`. -/
theorem c2_stride_inference_witness :
    (parse_entries 18 demoDirOk 3).length = 3 :=
  (c2_stride_inference 18 demoDirOk 3).2.2.2 (by decide) (by decide) (by decide)

/-- Any successfully parsed version-18 record aliases `archive_part` to
`uncompressed_size` (both read at record offset 268). -/
theorem parse_entry_v18_alias {version : Nat} (hv : 18 ≤ version) {ed : List Nat}
    {fe : FileEntry} (h : parse_entry version ed = .ok fe) :
    272 ≤ ed.length ∧
    fe.uncompressed_size = u32At ed 268 ∧ fe.archive_part = u32At ed 268 := by
  simp only [parse_entry, if_pos hv] at h
  cases h256 : unpack4 ed 256 with
  | error m => rw [h256] at h; cases h
  | ok fo =>
    rw [h256] at h
    dsimp only at h
    cases h264 : unpack4 ed 264 with
    | error m => rw [h264] at h; cases h
    | ok sod =>
      rw [h264] at h
      dsimp only at h
      cases h268 : unpack4 ed 268 with
      | error m => rw [h268] at h; cases h
      | ok us =>
        rw [h268] at h
        dsimp only at h
        obtain ⟨hle, hus⟩ := unpack4_ok_le h268
        have h272 : 272 ≤ ed.length := by omega
        rw [if_pos h272] at h
        dsimp only at h
        cases h
        exact ⟨h272, hus, hus⟩

/-- C5: in the version >= 18 record layout, `uncompressed_size` and
`archive_part` are both read as the little-endian u32 at record offset
268 (for records of at least 272 bytes, which any parse that survives
the unconditional read at 268 guarantees), so every surfaced version >=
18 entry has `archive_part = uncompressed_size`. -/
theorem c5_v18_field_alias (version : Nat) (hv : 18 ≤ version) :
    (∀ entry_data fe, parse_entry version entry_data = .ok fe →
      272 ≤ entry_data.length ∧
      fe.uncompressed_size = u32At entry_data 268 ∧
      fe.archive_part = u32At entry_data 268) ∧
    (∀ decompressed num_files fe, fe ∈ parse_entries version decompressed num_files →
      fe.archive_part = fe.uncompressed_size) := by
  refine ⟨fun ed fe h => parse_entry_v18_alias hv h, fun dec n fe hmem => ?_⟩
  simp only [parse_entries] at hmem
  obtain ⟨⟨w, hw⟩, -⟩ := parse_loop_mem version dec _ _ _ fe hmem
  obtain ⟨-, hu, ha⟩ := parse_entry_v18_alias hv hw
  rw [hu, ha]

set_option maxRecDepth 100000 in
/-- Witness for C5 on a concrete version-18 entry of `demoDir`. -/
theorem c5_v18_field_alias_witness :
    (⟨[65], 1, 7, 9, 9, 0⟩ : FileEntry).archive_part =
      (⟨[65], 1, 7, 9, 9, 0⟩ : FileEntry).uncompressed_size :=
  (c5_v18_field_alias 18 (by decide)).2 demoDir 3 ⟨[65], 1, 7, 9, 9, 0⟩ (by decide)

set_option maxRecDepth 100000 in
/-- C6: every entry surfaced by directory decode has a non-empty name
and a positive offset; a record failing the test is dropped silently, so
the concrete three-record directory `demoDir`, whose middle record has
`offset = 0`, yields exactly two entries and no error. -/
theorem c6_validity_filter (version : Nat) (decompressed : List Nat) (num_files : Nat) :
    (∀ fe ∈ parse_entries version decompressed num_files,
      fe.name ≠ [] ∧ 0 < fe.offset) ∧
    parse_entries 18 demoDir 3 = [⟨[65], 1, 7, 9, 9, 0⟩, ⟨[67], 2, 7, 9, 9, 0⟩] ∧
    (parse_entries 18 demoDir 3).length = 3 - 1 := by
  refine ⟨fun fe hmem => ?_, ?_, ?_⟩
  · simp only [parse_entries] at hmem
    exact (parse_loop_mem version decompressed _ _ _ fe hmem).2
  · decide
  · decide

set_option maxRecDepth 100000 in
/-- Witness for C6 on the first surfaced entry of `demoDir`. -/
theorem c6_validity_filter_witness :
    (⟨[65], 1, 7, 9, 9, 0⟩ : FileEntry).name ≠ [] ∧
      0 < (⟨[65], 1, 7, 9, 9, 0⟩ : FileEntry).offset :=
  (c6_validity_filter 18 demoDir 3).1 ⟨[65], 1, 7, 9, 9, 0⟩ (by decide)

/-- C3: the decompressor returns the first succeeding strategy in the
order frame, block-with-hint (only when the hint is nonzero), block-auto;
an exception in one strategy never prevents the next; if all three
transforms fail and the input is valid UTF-8 it is returned unchanged;
and the call errors out exactly when all four attempts fail. -/
theorem c3_decompression_order (lib : LZ4Lib) (c : List Nat) (e : Nat) :
    (∀ r, lib.frameDecompress c = .ok r → decompress_data lib c e = .ok r) ∧
    (∀ m r, lib.frameDecompress c = .error m → 0 < e →
      lib.blockDecompressWithSize c e = .ok r → decompress_data lib c e = .ok r) ∧
    (∀ m r, lib.frameDecompress c = .error m →
      (e = 0 ∨ ∃ m2, lib.blockDecompressWithSize c e = .error m2) →
      lib.blockDecompressAuto c = .ok r → decompress_data lib c e = .ok r) ∧
    (∀ m m3, lib.frameDecompress c = .error m →
      (e = 0 ∨ ∃ m2, lib.blockDecompressWithSize c e = .error m2) →
      lib.blockDecompressAuto c = .error m3 → validUtf8 c = true →
      decompress_data lib c e = .ok c) ∧
    ((∃ msg, decompress_data lib c e = .error msg) ↔
      ((∃ m, lib.frameDecompress c = .error m) ∧
       (e = 0 ∨ ∃ m2, lib.blockDecompressWithSize c e = .error m2) ∧
       (∃ m3, lib.blockDecompressAuto c = .error m3) ∧
       validUtf8 c = false)) := by
  refine ⟨fun r h => ?_, fun m r hf he hb => ?_, fun m r hf hcase hauto => ?_,
    fun m m3 hf hcase hauto hutf => ?_, ?_⟩
  · simp only [decompress_data, h]
  · simp only [decompress_data, hf, if_pos he, hb]
  · rcases hcase with he0 | ⟨m2, hb⟩
    · subst he0
      simp only [decompress_data, hf, hauto]
      rfl
    · by_cases he : 0 < e
      · simp only [decompress_data, hf, if_pos he, hb, hauto]
      · simp only [decompress_data, hf, if_neg he, hauto]
  · rcases hcase with he0 | ⟨m2, hb⟩
    · subst he0
      simp only [decompress_data, hf, hauto, hutf]
      rfl
    · by_cases he : 0 < e
      · simp only [decompress_data, hf, if_pos he, hb, hauto, hutf]
        rfl
      · simp only [decompress_data, hf, if_neg he, hauto, hutf]
        rfl
  · cases hf : lib.frameDecompress c with
    | ok r => simp [decompress_data, hf]
    | error m =>
      by_cases he : 0 < e
      · cases hb : lib.blockDecompressWithSize c e with
        | ok r => simp [decompress_data, hf, if_pos he, hb]; omega
        | error m2 =>
          cases hauto : lib.blockDecompressAuto c with
          | ok r => simp [decompress_data, hf, if_pos he, hb, hauto]
          | error m3 =>
            cases hutf : validUtf8 c with
            | true => simp [decompress_data, hf, if_pos he, hb, hauto, hutf]
            | false => simp [decompress_data, hf, if_pos he, hb, hauto, hutf]
      · cases hauto : lib.blockDecompressAuto c with
        | ok r => simp [decompress_data, hf, if_neg he, hauto]
        | error m3 =>
          cases hutf : validUtf8 c with
          | true => simp [decompress_data, hf, if_neg he, hauto, hutf]
          | false => simp [decompress_data, hf, if_neg he, hauto, hutf]; omega

/-- Witness for C3: with every strategy failing and the single-byte
UTF-8 input `[65]`, the decompressor returns the input unchanged. -/
theorem c3_decompression_order_witness :
    decompress_data lz4AllFail [65] 0 = .ok [65] :=
  (c3_decompression_order lz4AllFail [65] 0).2.2.2.1 "frame failed" "auto failed"
    rfl (Or.inl rfl) rfl (by decide)

/-- C4 counterexample: a 4-byte payload equal to the LZ4 frame magic,
with equal sizes, must be decompressed by the claim's rule (b), but the
source guards rules (b) and (c) behind `len(file_data) > 4`, so no
decompression is attempted and the raw payload is returned. -/
theorem c4_decision_counterexample :
    claim_needs_decompression ⟨[109], 1, 4, 4, 0, 0⟩ [0x04, 0x22, 0x4D, 0x18] = true ∧
    needs_decompression ⟨[109], 1, 4, 4, 0, 0⟩ [0x04, 0x22, 0x4D, 0x18] = false := by
  decide

/-- C4 amended: the decision follows the claim's priority order, except
that rules (b) and (c) only apply to payloads strictly longer than 4
bytes; payloads of at most 4 bytes fall through to returning the raw
bytes unless rule (a) matched; when no rule matches the raw payload is
returned unchanged with no decompression attempted. -/
theorem c4_decision_amended (lib : LZ4Lib) (target_file : FileEntry) (file_data : List Nat) :
    (needs_decompression target_file file_data = true ↔
      ((target_file.size_on_disk ≠ target_file.uncompressed_size ∧
          0 < target_file.uncompressed_size) ∨
        (4 < file_data.length ∧
          (file_data.take 4 = [0x04, 0x22, 0x4D, 0x18] ∨
            ((∃ b ∈ file_data.take 50, b < 0x20 ∨ 0x7E < b) ∧
              0x3C ∉ file_data.take 100))))) ∧
    (needs_decompression target_file file_data = false →
      process_payload lib target_file file_data = file_data) := by
  constructor
  · simp only [needs_decompression]
    split_ifs with h1 h2 h3 h4
    · simp [h1]
    · simp [h2, h3]
    · simp only [List.any_eq_true, Bool.and_eq_true, Bool.or_eq_true, decide_eq_true_eq,
        Bool.not_eq_true', List.contains, List.elem_eq_mem, decide_eq_false_iff_not] at h4
      simp [h1, h2, h3, h4]
    · simp only [List.any_eq_true, Bool.and_eq_true, Bool.or_eq_true, decide_eq_true_eq,
        Bool.not_eq_true', List.contains, List.elem_eq_mem, decide_eq_false_iff_not] at h4
      simp [h1, h2, h3, h4]
    · simp [h1, h2]
  · intro h
    simp [process_payload, h]

/-- Witness for the amended C4 on a no-decompression payload. -/
theorem c4_decision_amended_witness :
    process_payload lz4AllFail ⟨[109], 1, 4, 4, 0, 0⟩ [0x04, 0x22, 0x4D, 0x18] =
      [0x04, 0x22, 0x4D, 0x18] :=
  (c4_decision_amended lz4AllFail ⟨[109], 1, 4, 4, 0, 0⟩ [0x04, 0x22, 0x4D, 0x18]).2
    (by decide)

/-- C7: when extraction has read the payload and selects decompression
but the decompressor fails, the raw payload is returned instead of an
error; in every case the payload step yields bytes (raw, or a successful
decompression result), never a fatal failure. -/
theorem c7_degrade_to_raw (lib : LZ4Lib) (target_file : FileEntry) (file_data : List Nat) :
    (needs_decompression target_file file_data = true →
      ∀ m, decompress_data lib file_data target_file.uncompressed_size = .error m →
        process_payload lib target_file file_data = file_data) ∧
    (process_payload lib target_file file_data = file_data ∨
      ∃ r, decompress_data lib file_data target_file.uncompressed_size = .ok r ∧
        process_payload lib target_file file_data = r) := by
  constructor
  · intro hnd m herr
    simp [process_payload, hnd, herr]
  · by_cases hnd : needs_decompression target_file file_data = true
    · cases hd : decompress_data lib file_data target_file.uncompressed_size with
      | ok r =>
        right
        exact ⟨r, rfl, by simp [process_payload, hnd, hd]⟩
      | error m =>
        left
        simp [process_payload, hnd, hd]
    · left
      simp [process_payload, hnd]

/-- Witness for C7: sizes 4 and 9 disagree, every strategy fails and the
byte 0xFF is not UTF-8, so the raw payload comes back. -/
theorem c7_degrade_to_raw_witness :
    process_payload lz4AllFail ⟨[109], 1, 4, 9, 0, 0⟩ [0xFF] = [0xFF] :=
  (c7_degrade_to_raw lz4AllFail ⟨[109], 1, 4, 9, 0, 0⟩ [0xFF]).1 (by decide)
    "All decompression methods failed" rfl

/-- C8: extraction matches the requested member name case-insensitively
against the cached entries, returns `none` exactly when no entry's name
equals the request up to case, and a member stored under some name is
retrievable via any casing of that name. -/
theorem c8_case_insensitive_lookup (lib : LZ4Lib) (data : List Nat)
    (header : PackageHeader) (files : List FileEntry) (filename : List Nat) :
    (extract_file lib data header files filename = none ↔
      ∀ fe ∈ files, strLower fe.name ≠ strLower filename) ∧
    (∀ fe ∈ files, ∀ q, strLower q = strLower fe.name →
      extract_file lib data header files q ≠ none) := by
  have hiff : ∀ fn, findEntry files fn = none ↔
      ∀ fe ∈ files, strLower fe.name ≠ strLower fn := by
    intro fn
    simp [findEntry, List.find?_eq_none]
  have hext : ∀ fn, extract_file lib data header files fn = none ↔
      findEntry files fn = none := by
    intro fn
    cases hf : findEntry files fn with
    | none => simp [extract_file, hf]
    | some tf => simp [extract_file, hf]
  constructor
  · rw [hext filename]
    exact hiff filename
  · intro fe hmem q hq h
    have := ((hiff q).mp ((hext q).mp h)) fe hmem
    rw [hq] at this
    exact this rfl

/-- Witness for C8: the entry named `Me` is found by the query `mE`. -/
theorem c8_case_insensitive_lookup_witness :
    extract_file lz4AllFail [] ⟨LSPK_SIGNATURE, 18, 40, 5, 2, 0⟩
      [⟨[77, 101], 5, 4, 4, 0, 0⟩] [109, 69] ≠ none :=
  (c8_case_insensitive_lookup lz4AllFail [] ⟨LSPK_SIGNATURE, 18, 40, 5, 2, 0⟩
      [⟨[77, 101], 5, 4, 4, 0, 0⟩] [109, 69]).2
    ⟨[77, 101], 5, 4, 4, 0, 0⟩ (by decide) [109, 69] (by decide)

/-- `read_pak_structure` either fails flat (no header, no files) or
caches some parsed header together with its decoded entries, succeeding
exactly when at least one entry was decoded. -/
theorem read_pak_structure_cases (lib : LZ4Lib) (data : List Nat) :
    read_pak_structure lib data = ⟨false, none, []⟩ ∨
    ∃ h, read_pak_structure lib data =
      ⟨decide (0 < (read_file_entries lib data h).length), some h,
        read_file_entries lib data h⟩ := by
  simp only [read_pak_structure]
  split
  · exact Or.inl rfl
  · split
    · next h heq => exact Or.inr ⟨h, rfl⟩
    · split
      · split
        · exact Or.inl rfl
        · next h heq => exact Or.inr ⟨h, rfl⟩
      · exact Or.inl rfl

/-- C10: opening an archive reports success exactly when a header was
parsed and the decoded directory surfaced at least one entry; on an
archive whose directory yields zero entries, open fails, `list_files`
returns the empty list, and extraction returns `none` for every name. -/
theorem c10_open_iff_entries (lib : LZ4Lib) (data : List Nat) :
    ((read_pak_structure lib data).success = true ↔
      (read_pak_structure lib data).header.isSome ∧
        (read_pak_structure lib data).files ≠ []) ∧
    ((read_pak_structure lib data).files = [] →
      list_files lib data = [] ∧
      ∀ filename, extract_file_fresh lib data filename = none) := by
  rcases read_pak_structure_cases lib data with hr | ⟨h, hr⟩
  · refine ⟨?_, fun _ => ⟨?_, fun filename => ?_⟩⟩
    · rw [hr]
      simp
    · simp [list_files, hr]
    · simp [extract_file_fresh, hr]
  · refine ⟨?_, fun hfe => ?_⟩
    · rw [hr]
      simp [List.length_pos]
    · rw [hr] at hfe
      dsimp only at hfe
      exact ⟨by simp [list_files, hr, hfe],
        fun filename => by simp [extract_file_fresh, hr, hfe]⟩

/-- Witness for C10 on the empty buffer, which has no header and no
entries. -/
theorem c10_open_iff_entries_witness :
    list_files lz4AllFail [] = [] ∧ extract_file_fresh lz4AllFail [] [109] = none :=
  ⟨((c10_open_iff_entries lz4AllFail []).2 (by decide)).1,
   ((c10_open_iff_entries lz4AllFail []).2 (by decide)).2 [109]⟩
